import Mathlib

/-!
Verification of the rust-deej control core (analog volume-mixer firmware).

Shallow embedding of `src/lib.rs`, `src/globals.rs` and the scheduler glue
in `src/main.rs`.  Machine integers (`u16`, `u32`) are modelled as `Nat`
with explicit `% 65536` (2 ^ 16) and `% 4294967296` (2 ^ 32) reductions at
the points where the Rust code widens, wraps or truncates.  Code that can
panic on a caller-supplied input (integer division by zero) is modelled as
an `Option`-returning function.  Hardware side effects on the display
device are modelled as a trace of abstract device operations.
-/

namespace RustDeej

/-! ## Constants (`src/globals.rs`) -/

abbrev DISPLAY_UPDATE_PERIOD : Nat := 50

abbrev SERIAL_UPDATE_PERIOD : Nat := 500

abbrev MAX_ANALOG_VALUE : Nat := 770

/-- Analog input never really is zero: every raw reading under this cutoff
is interpreted as zero volume. -/
abbrev ZERO_CUTOFF : Nat := 35

abbrev INPUT_COUNT : Nat := 4

/-! ## Scaler (`scale_to_range`, `src/lib.rs` lines 76-90)

The Rust source computes, on `u16` inputs,
`old_range = old_max - old_min`, `new_range = new_max - new_min`,
clamps `value` to `old_max`, then evaluates
`((value as u32 - old_min as u32) * new_range as u32 / old_range as u32
  + new_min as u32) as u16`.
Subtraction and addition wrap at the respective word size (release-build
semantics); the final cast truncates to 16 bits.  The `old_min < old_max`
precondition (spec section 4.1) makes the divisor nonzero in every call the
program performs; violating it is a fatal programming error in the source. -/

def scale_to_range (value old_min old_max new_min new_max : Nat) : Nat :=
  let old_range := (old_max + 65536 - old_min) % 65536
  let new_range := (new_max + 65536 - new_min) % 65536
  let value := min value old_max
  ((value + 4294967296 - old_min) % 4294967296 * new_range % 4294967296
      / old_range + new_min) % 4294967296 % 65536

def scale_analog_input_to_1023 (value : Nat) : Nat :=
  scale_to_range value 0 MAX_ANALOG_VALUE 0 1023

def scale_analog_input_to_100 (value : Nat) : Nat :=
  scale_to_range value 0 MAX_ANALOG_VALUE 0 100

/-- Closed form of `scale_to_range` in the intended `u16` domain: all the
wrap-around reductions are the identity and only the clamp, the widened
multiply/divide and the final offset remain. -/
lemma scale_to_range_closed (value old_min old_max new_min new_max : Nat)
    (hom : old_min < old_max) (homax : old_max < 65536)
    (hnm : new_min < new_max) (hnmax : new_max < 65536)
    (hlo : old_min ≤ value) :
    scale_to_range value old_min old_max new_min new_max =
      (min value old_max - old_min) * (new_max - new_min)
        / (old_max - old_min) + new_min := by
  have h1 : (old_max + 65536 - old_min) % 65536 = old_max - old_min := by omega
  have h2 : (new_max + 65536 - new_min) % 65536 = new_max - new_min := by omega
  have h3 : (min value old_max + 4294967296 - old_min) % 4294967296 =
      min value old_max - old_min := by omega
  simp only [scale_to_range]
  rw [h1, h2, h3]
  have hprod : (min value old_max - old_min) * (new_max - new_min) <
      4294967296 := by
    calc (min value old_max - old_min) * (new_max - new_min)
        ≤ 65535 * 65535 := Nat.mul_le_mul (by omega) (by omega)
      _ < 4294967296 := by norm_num
  rw [Nat.mod_eq_of_lt hprod]
  have hq : (min value old_max - old_min) * (new_max - new_min)
      / (old_max - old_min) ≤ new_max - new_min := by
    have hle : (min value old_max - old_min) * (new_max - new_min)
        ≤ (old_max - old_min) * (new_max - new_min) :=
      Nat.mul_le_mul_right _ (by omega)
    calc (min value old_max - old_min) * (new_max - new_min)
          / (old_max - old_min)
        ≤ (old_max - old_min) * (new_max - new_min) / (old_max - old_min) :=
          Nat.div_le_div_right hle
      _ = new_max - new_min := Nat.mul_div_cancel_left _ (by omega)
  generalize (min value old_max - old_min) * (new_max - new_min)
    / (old_max - old_min) = q at hq ⊢
  omega

/-- The claim-relevant upper/lower bounds of the scaler in closed form. -/
lemma scale_to_range_mem (value old_min old_max new_min new_max : Nat)
    (hom : old_min < old_max) (homax : old_max < 65536)
    (hnm : new_min < new_max) (hnmax : new_max < 65536)
    (hlo : old_min ≤ value) :
    new_min ≤ scale_to_range value old_min old_max new_min new_max ∧
      scale_to_range value old_min old_max new_min new_max ≤ new_max := by
  rw [scale_to_range_closed value old_min old_max new_min new_max hom homax
    hnm hnmax hlo]
  have hq : (min value old_max - old_min) * (new_max - new_min)
      / (old_max - old_min) ≤ new_max - new_min := by
    have hle : (min value old_max - old_min) * (new_max - new_min)
        ≤ (old_max - old_min) * (new_max - new_min) :=
      Nat.mul_le_mul_right _ (by omega)
    calc (min value old_max - old_min) * (new_max - new_min)
          / (old_max - old_min)
        ≤ (old_max - old_min) * (new_max - new_min) / (old_max - old_min) :=
          Nat.div_le_div_right hle
      _ = new_max - new_min := Nat.mul_div_cancel_left _ (by omega)
  generalize (min value old_max - old_min) * (new_max - new_min)
    / (old_max - old_min) = q at hq ⊢
  omega

/-- C1: for every `value ≤ old_max` (with `old_min < old_max`,
`new_min < new_max`, `old_min ≤ value`, all in the `u16` domain),
`scale_to_range value old_min old_max new_min new_max` lies in
`[new_min, new_max]`; it maps `old_min` to `new_min` and `old_max` to
`new_max`; and every `value > old_max` yields the same result as
`value = old_max` (upper clamp). -/
theorem scale_to_range_range_endpoints_clamp
    (value old_min old_max new_min new_max : Nat)
    (hom : old_min < old_max) (homax : old_max < 65536)
    (hnm : new_min < new_max) (hnmax : new_max < 65536)
    (hlo : old_min ≤ value) :
    (value ≤ old_max →
      new_min ≤ scale_to_range value old_min old_max new_min new_max ∧
        scale_to_range value old_min old_max new_min new_max ≤ new_max) ∧
    scale_to_range old_min old_min old_max new_min new_max = new_min ∧
    scale_to_range old_max old_min old_max new_min new_max = new_max ∧
    (old_max < value →
      scale_to_range value old_min old_max new_min new_max =
        scale_to_range old_max old_min old_max new_min new_max) := by
  refine ⟨fun _ => scale_to_range_mem value old_min old_max new_min new_max
    hom homax hnm hnmax hlo, ?_, ?_, ?_⟩
  · rw [scale_to_range_closed old_min old_min old_max new_min new_max hom
      homax hnm hnmax (Nat.le_refl _)]
    have hmin : min old_min old_max = old_min := by omega
    rw [hmin, Nat.sub_self, Nat.zero_mul, Nat.zero_div, Nat.zero_add]
  · rw [scale_to_range_closed old_max old_min old_max new_min new_max hom
      homax hnm hnmax (Nat.le_of_lt hom)]
    have hmin : min old_max old_max = old_max := by omega
    rw [hmin, Nat.mul_div_cancel_left _ (by omega : 0 < old_max - old_min)]
    omega
  · intro hgt
    rw [scale_to_range_closed value old_min old_max new_min new_max hom homax
      hnm hnmax hlo,
      scale_to_range_closed old_max old_min old_max new_min new_max hom homax
      hnm hnmax (Nat.le_of_lt hom)]
    have : min value old_max = min old_max old_max := by omega
    rw [this]

/-- Witness for C1 at the telemetry instantiation `[0, 770] → [0, 1023]`
with `value = 385`. -/
theorem scale_to_range_range_endpoints_clamp_witness :
    (0 : Nat) < 770 ∧ (770 : Nat) < 65536 ∧ (0 : Nat) < 1023 ∧
    (1023 : Nat) < 65536 ∧ (0 : Nat) ≤ 385 ∧
    ((385 ≤ 770 →
      0 ≤ scale_to_range 385 0 770 0 1023 ∧
        scale_to_range 385 0 770 0 1023 ≤ 1023) ∧
    scale_to_range 0 0 770 0 1023 = 0 ∧
    scale_to_range 770 0 770 0 1023 = 1023 ∧
    (770 < 385 →
      scale_to_range 385 0 770 0 1023 = scale_to_range 770 0 770 0 1023)) :=
  ⟨by decide, by decide, by decide, by decide, by decide,
    scale_to_range_range_endpoints_clamp 385 0 770 0 1023 (by decide)
      (by decide) (by decide) (by decide) (by decide)⟩

/-! ## Sampler (`ReadAnalog`, `src/lib.rs` lines 52-74)

`read` models one blocking ADC conversion: the driver hands back a raw
digitized `u16` and the function coerces values below `ZERO_CUTOFF` to 0.
The stream of raw conversion results the hardware would produce is modelled
as a function `raw_values : Nat → Nat` giving the i-th conversion result.

`read_multi_sample` accumulates `sample_size` dead-band-filtered readings
in a `u32` accumulator (additions wrap at 2 ^ 32) and divides by
`sample_size`; the final `as u16` cast truncates to 16 bits.  Rust integer
division panics when `sample_size = 0`, which the model reflects by
returning `none` in that case. -/

def read (raw_value : Nat) : Nat :=
  if raw_value < ZERO_CUTOFF then 0 else raw_value

def read_multi_sample (raw_values : Nat → Nat) (sample_size : Nat) :
    Option Nat :=
  let sum := (List.range sample_size).foldl
    (fun sum i =>
      (sum + (if raw_values i < ZERO_CUTOFF then 0 else raw_values i))
        % 4294967296) 0
  if sample_size = 0 then none else some (sum / sample_size % 65536)

/-- The accumulation loop of `read_multi_sample`, in closed form: starting
from an in-range accumulator it computes the wrapped sum of the filtered
readings. -/
lemma foldl_read_mod (raw_values : Nat → Nat) :
    ∀ (n acc : Nat), acc < 4294967296 →
      (List.range n).foldl
        (fun sum i => (sum + read (raw_values i)) % 4294967296) acc =
        (acc + ∑ i ∈ Finset.range n, read (raw_values i)) % 4294967296 := by
  intro n
  induction n with
  | zero => intro acc hacc; simpa using (Nat.mod_eq_of_lt hacc).symm
  | succ n ih =>
      intro acc hacc
      rw [List.range_succ, List.foldl_append, ih acc hacc,
        Finset.sum_range_succ]
      simp only [List.foldl_cons, List.foldl_nil]
      omega

/-- The accumulation loop on a constant per-step addend, wrapped sum form. -/
lemma foldl_add_mod_const (c : Nat) :
    ∀ (n acc : Nat), acc < 4294967296 →
      (List.range n).foldl (fun sum _ => (sum + c) % 4294967296) acc =
        (acc + n * c) % 4294967296 := by
  intro n
  induction n with
  | zero => intro acc hacc; simpa using (Nat.mod_eq_of_lt hacc).symm
  | succ n ih =>
      intro acc hacc
      rw [List.range_succ, List.foldl_append, ih acc hacc]
      simp only [List.foldl_cons, List.foldl_nil]
      have : (n + 1) * c = n * c + c := by ring
      omega

/-- When the true sum of the filtered readings fits the 32-bit accumulator,
`read_multi_sample` returns the truncated mean of that sum. -/
lemma read_multi_sample_eq_sum (raw_values : Nat → Nat) (sample_size : Nat)
    (hn : sample_size ≠ 0)
    (hsum : (∑ i ∈ Finset.range sample_size, read (raw_values i)) <
      4294967296) :
    read_multi_sample raw_values sample_size =
      some ((∑ i ∈ Finset.range sample_size, read (raw_values i))
        / sample_size % 65536) := by
  simp only [read_multi_sample]
  have hrw : ∀ y : Nat, (if y < ZERO_CUTOFF then 0 else y) = read y :=
    fun _ => rfl
  simp only [hrw]
  rw [if_neg hn, foldl_read_mod raw_values sample_size 0 (by norm_num),
    Nat.zero_add, Nat.mod_eq_of_lt hsum]

/-- C6: a single `read` returns 0 for raw digitized values below
`ZERO_CUTOFF` and the raw value unchanged otherwise, and
`read_multi_sample` applies exactly this per-reading dead-band rule to each
of its readings before accumulating. -/
theorem read_applies_dead_band :
    (∀ x, x < ZERO_CUTOFF → read x = 0) ∧
    (∀ x, ZERO_CUTOFF ≤ x → read x = x) ∧
    (∀ raw_values sample_size,
      read_multi_sample raw_values sample_size =
        if sample_size = 0 then none
        else some ((List.range sample_size).foldl
          (fun sum i => (sum + read (raw_values i)) % 4294967296) 0
            / sample_size % 65536)) :=
  ⟨fun x hx => by simp [read, hx],
   fun x hx => by simp [read, Nat.not_lt.mpr hx],
   fun _ _ => rfl⟩

/-- Witness for C6 at raw values 10 (below the cutoff) and 100 (above). -/
theorem read_applies_dead_band_witness :
    ((10 : Nat) < ZERO_CUTOFF ∧ read 10 = 0) ∧
      (ZERO_CUTOFF ≤ (100 : Nat) ∧ read 100 = 100) :=
  ⟨⟨by decide, read_applies_dead_band.1 10 (by decide)⟩,
   ⟨by decide, read_applies_dead_band.2.1 100 (by decide)⟩⟩

/-- C10: `read_multi_sample` divides the accumulated sum by `sample_size`
with no guard, so `sample_size = 0` hits a division by zero (a Rust panic,
modelled as `none`); for every `sample_size ≥ 1` the operation is total. -/
theorem read_multi_sample_zero_sample_size :
    (∀ raw_values, read_multi_sample raw_values 0 = none) ∧
    (∀ raw_values sample_size, 1 ≤ sample_size →
      ∃ v, read_multi_sample raw_values sample_size = some v) := by
  constructor
  · intro raw_values; rfl
  · intro raw_values sample_size h
    have hne : ¬sample_size = 0 := by omega
    exact ⟨(List.range sample_size).foldl
      (fun sum i =>
        (sum + (if raw_values i < ZERO_CUTOFF then 0 else raw_values i))
          % 4294967296) 0 / sample_size % 65536,
      by simp [read_multi_sample, hne]⟩

/-- Witness for C10 at `sample_size = 0` and `sample_size = 1`. -/
theorem read_multi_sample_zero_sample_size_witness :
    read_multi_sample (fun _ => 100) 0 = none ∧
      ((1 : Nat) ≤ 1 ∧ ∃ v, read_multi_sample (fun _ => 100) 1 = some v) :=
  ⟨read_multi_sample_zero_sample_size.1 _,
   by decide,
   read_multi_sample_zero_sample_size.2 (fun _ => 100) 1 (by decide)⟩

/-- C4 counterexample: with every underlying conversion returning the raw
value 10 (nonzero but below `ZERO_CUTOFF`) and `sample_size = 1`,
`read_multi_sample` returns 0, not 10 — the dead-band rewrites the samples
before averaging. -/
theorem read_multi_sample_constant_raw_counterexample :
    read_multi_sample (fun _ => 10) 1 = some 0 ∧
      some (0 : Nat) ≠ some (10 : Nat) := by
  constructor
  · rfl
  · decide

/-- C4 (amended): if every conversion returns the same raw value `x` in the
`u16` domain, `x` survives the dead-band (`x = 0` or `x ≥ ZERO_CUTOFF`),
`sample_size ≥ 1`, and the accumulated sum `sample_size * x` fits the
32-bit accumulator, then `read_multi_sample` returns exactly `x` — the
integer mean introduces no drift when all samples are equal. -/
theorem read_multi_sample_constant_exact (x sample_size : Nat)
    (hx16 : x < 65536) (hdb : x = 0 ∨ ZERO_CUTOFF ≤ x)
    (hn : 1 ≤ sample_size) (hov : sample_size * x < 4294967296) :
    read_multi_sample (fun _ => x) sample_size = some x := by
  have hread : read x = x := by
    rcases hdb with h | h
    · simp [read, h]
    · simp [read, Nat.not_lt.mpr h]
  have hsum : (∑ i ∈ Finset.range sample_size, read ((fun _ : Nat => x) i))
      = sample_size * x := by
    simp [hread, Finset.sum_const, Finset.card_range, smul_eq_mul]
  rw [read_multi_sample_eq_sum (fun _ => x) sample_size (by omega)
    (by rw [hsum]; exact hov), hsum,
    Nat.mul_div_cancel_left x (by omega : 0 < sample_size),
    Nat.mod_eq_of_lt hx16]

/-- Witness for the amended C4 at `x = 770`, `sample_size = 100`. -/
theorem read_multi_sample_constant_exact_witness :
    (770 : Nat) < 65536 ∧ ((770 : Nat) = 0 ∨ ZERO_CUTOFF ≤ 770) ∧
      (1 : Nat) ≤ 100 ∧ 100 * 770 < 4294967296 ∧
      read_multi_sample (fun _ => 770) 100 = some 770 :=
  ⟨by decide, by decide, by decide, by decide,
    read_multi_sample_constant_exact 770 100 (by decide) (by decide)
      (by decide) (by decide)⟩

/-- C8 counterexample: the caller-chosen `sample_size` is a full `u32`, so
the 32-bit accumulator can wrap — at `sample_size = 131072` with every
reading 65535 the code returns 32767 while the exact truncated mean of the
dead-band-filtered readings is 65535. -/
theorem read_multi_sample_overflow_counterexample :
    read_multi_sample (fun _ => 65535) 131072 = some 32767 ∧
      (∑ _i ∈ Finset.range 131072, read 65535) / 131072 = 65535 ∧
      (32767 : Nat) ≠ 65535 := by
  refine ⟨?_, ?_, by decide⟩
  · simp only [read_multi_sample]
    have hrw : ∀ y : Nat, (if y < ZERO_CUTOFF then 0 else y) = read y :=
      fun _ => rfl
    simp only [hrw]
    have hfun : (fun (sum _ : Nat) => (sum + read 65535) % 4294967296) =
        fun (sum _ : Nat) => (sum + 65535) % 4294967296 := by
      funext sum _i
      norm_num [read, ZERO_CUTOFF]
    rw [hfun, foldl_add_mod_const 65535 131072 0 (by norm_num)]
    norm_num
  · rw [Finset.sum_const, Finset.card_range, smul_eq_mul]
    decide

/-- C8 (amended): for every `sample_size` between 1 and 65537 (the
program's own call uses 100) and readings in the 16-bit sample domain, the
32-bit accumulator cannot overflow and `read_multi_sample` returns the
exact truncated mean of the dead-band-filtered readings; for larger
`sample_size` the sum can wrap (see the counterexample). -/
theorem read_multi_sample_mean_exact (raw_values : Nat → Nat)
    (sample_size : Nat)
    (h16 : ∀ i, i < sample_size → raw_values i < 65536)
    (hn : 1 ≤ sample_size) (hcap : sample_size ≤ 65537) :
    read_multi_sample raw_values sample_size =
      some ((∑ i ∈ Finset.range sample_size, read (raw_values i))
        / sample_size) := by
  have hterm : ∀ i ∈ Finset.range sample_size, read (raw_values i) ≤ 65535 := by
    intro i hi
    have := h16 i (Finset.mem_range.mp hi)
    simp only [read]
    split <;> omega
  have hsum : (∑ i ∈ Finset.range sample_size, read (raw_values i)) ≤
      sample_size * 65535 := by
    calc (∑ i ∈ Finset.range sample_size, read (raw_values i))
        ≤ ∑ _i ∈ Finset.range sample_size, 65535 := Finset.sum_le_sum hterm
      _ = sample_size * 65535 := by
          rw [Finset.sum_const, Finset.card_range, smul_eq_mul]
  have hlt : (∑ i ∈ Finset.range sample_size, read (raw_values i)) <
      4294967296 := by
    have : sample_size * 65535 ≤ 65537 * 65535 :=
      Nat.mul_le_mul_right _ hcap
    omega
  rw [read_multi_sample_eq_sum raw_values sample_size (by omega) hlt]
  have hmean : (∑ i ∈ Finset.range sample_size, read (raw_values i))
      / sample_size ≤ 65535 := by
    calc (∑ i ∈ Finset.range sample_size, read (raw_values i)) / sample_size
        ≤ sample_size * 65535 / sample_size := Nat.div_le_div_right hsum
      _ = 65535 := Nat.mul_div_cancel_left _ (by omega)
  rw [Nat.mod_eq_of_lt (by omega)]

/-- Witness for the amended C8 at 100 constant readings of 500. -/
theorem read_multi_sample_mean_exact_witness :
    (∀ i, i < 100 → (fun _ : Nat => (500 : Nat)) i < 65536) ∧
      (1 : Nat) ≤ 100 ∧ (100 : Nat) ≤ 65537 ∧
      read_multi_sample (fun _ => 500) 100 =
        some ((∑ _i ∈ Finset.range 100, read 500) / 100) :=
  ⟨fun _ _ => by norm_num, by decide, by decide,
    read_multi_sample_mean_exact (fun _ => 500) 100 (fun _ _ => by norm_num)
      (by decide) (by decide)⟩

/-! ## Display state machine (`DisplayState`, `src/lib.rs` lines 92-266)

The `Ssd1306` display device is out of scope (spec section 1): the model
records the operations `draw`, `turn_on` and `turn_off` issue to it as a
trace of abstract `DeviceOp`s.  Pixel coordinates of the text labels and
bars are fixed layout constants computed once in `new` from the device's
bounding box; they are not observed by any claim and are elided from the
trace, which keeps the drawn text, the bar sizes (including the scaled fill
width) and the op order. -/

inductive DisplayStatus where
  | Changed
  | NotChanged
deriving DecidableEq

inductive DeviceOp where
  | setDisplayOn (power : Bool)
  | clear
  | text (s : String)
  | outlineRect (width height : Nat)
  | fillRect (width height : Nat)
  | flush
deriving DecidableEq

/-- Fixed bar geometry set once in `DisplayState::new`. -/
def vol_bar_height : Nat := 7

def vol_bar_width : Nat := 80

structure DisplayState where
  volumes : Fin INPUT_COUNT → Nat
  ready_to_draw : Bool
  title : Option String

def DisplayState.new : DisplayState :=
  { volumes := fun _ => 0, ready_to_draw := false, title := none }

def DisplayState.with_volumes (volumes : Fin INPUT_COUNT → Nat) :
    DisplayState :=
  { DisplayState.new with volumes := volumes }

/-- Needs to be called to actually draw anything on the screen. -/
def DisplayState.ready (s : DisplayState) : DisplayState :=
  { s with ready_to_draw := true }

def DisplayState.set_title (s : DisplayState) (title : String) :
    DisplayState :=
  { s with title := some title }

def DisplayState.disable_title (s : DisplayState) : DisplayState :=
  { s with title := none }

/-- `u16::abs_diff`. -/
def absDiff (a b : Nat) : Nat := if b ≤ a then a - b else b - a

/-- Per-channel hysteresis update of `DisplayState::set_volumes`: a new
value replaces the stored one only when they differ by more than 1, and
the result is `Changed` exactly when some channel was replaced. -/
def DisplayState.set_volumes (s : DisplayState)
    (volumes : Fin INPUT_COUNT → Nat) : DisplayState × DisplayStatus :=
  let newVolumes : Fin INPUT_COUNT → Nat := fun idx =>
    if 1 < absDiff (volumes idx) (s.volumes idx) then volumes idx
    else s.volumes idx
  let changed : Bool := (List.finRange INPUT_COUNT).any fun idx =>
    decide (1 < absDiff (volumes idx) (s.volumes idx))
  ({ s with volumes := newVolumes },
    if changed then DisplayStatus.Changed else DisplayStatus.NotChanged)

/-- `DisplayState::turn_on`: device display-on flag set, buffer untouched. -/
def turn_on : List DeviceOp := [DeviceOp.setDisplayOn true]

/-- `DisplayState::turn_off`: device display-on flag cleared. -/
def turn_off : List DeviceOp := [DeviceOp.setDisplayOn false]

/-- Ops a single channel row contributes to a frame: the "index: value"
label, the outlined bar frame, and the filled bar whose width is the
percentage mapped onto the bar's pixel width. -/
def DisplayState.drawChannelOps (s : DisplayState) (idx : Fin INPUT_COUNT) :
    List DeviceOp :=
  [DeviceOp.text (toString idx.val ++ ": " ++ toString (s.volumes idx)),
   DeviceOp.outlineRect vol_bar_width vol_bar_height,
   DeviceOp.fillRect (scale_to_range (s.volumes idx) 0 100 0 vol_bar_width)
     vol_bar_height]

/-- `DisplayState::draw`: fails with the not-ready error (touching neither
the state nor the device) until `ready` has been called; otherwise turns
the display on, clears, optionally draws the title, draws every channel
row and flushes. -/
def DisplayState.draw (s : DisplayState) :
    Except Unit Unit × DisplayState × List DeviceOp :=
  if s.ready_to_draw = false then
    (Except.error (), s, [])
  else
    (Except.ok (), s,
      turn_on ++ [DeviceOp.clear] ++
        (match s.title with
          | some t => [DeviceOp.text t]
          | none => []) ++
        ((List.finRange INPUT_COUNT).flatMap fun idx => s.drawChannelOps idx)
        ++ [DeviceOp.flush])

lemma set_volumes_fst_volumes (s : DisplayState)
    (vols : Fin INPUT_COUNT → Nat) (i : Fin INPUT_COUNT) :
    (s.set_volumes vols).1.volumes i =
      if 1 < absDiff (vols i) (s.volumes i) then vols i else s.volumes i :=
  rfl

lemma set_volumes_changed_iff (s : DisplayState)
    (vols : Fin INPUT_COUNT → Nat) :
    (s.set_volumes vols).2 = DisplayStatus.Changed ↔
      ∃ i, 1 < absDiff (vols i) (s.volumes i) := by
  have hany : ((List.finRange INPUT_COUNT).any fun idx =>
      decide (1 < absDiff (vols idx) (s.volumes idx))) = true ↔
      ∃ i, 1 < absDiff (vols i) (s.volumes i) := by
    simp [List.any_eq_true, List.mem_finRange]
  simp only [DisplayState.set_volumes]
  by_cases hb : ((List.finRange INPUT_COUNT).any fun idx =>
      decide (1 < absDiff (vols idx) (s.volumes idx))) = true
  · simp only [hb, if_true]
    simp [hany.mp hb]
  · rw [if_neg hb]
    simp only [← hany]
    constructor
    · intro h; cases h
    · intro h; exact absurd h hb

lemma set_volumes_not_changed_iff (s : DisplayState)
    (vols : Fin INPUT_COUNT → Nat) :
    (s.set_volumes vols).2 = DisplayStatus.NotChanged ↔
      ¬∃ i, 1 < absDiff (vols i) (s.volumes i) := by
  rw [← set_volumes_changed_iff s vols]
  rcases h : (s.set_volumes vols).2 with _ | _ <;> simp [h]

/-- C2: `set_volumes` updates the stored value at channel `i` exactly when
the new value differs from the stored one by more than 1, and returns
`Changed` exactly when at least one channel was updated (`NotChanged`
otherwise); concretely, from stored `[10, 20, 30, 40]` and new
`[11, 20, 32, 40]`, channel 0 (diff 1) keeps 10, channel 2 (diff 2)
becomes 32, and the result is `Changed`. -/
theorem set_volumes_hysteresis (s : DisplayState)
    (vols : Fin INPUT_COUNT → Nat) :
    (∀ i, (s.set_volumes vols).1.volumes i =
      if 1 < absDiff (vols i) (s.volumes i) then vols i else s.volumes i) ∧
    ((s.set_volumes vols).2 = DisplayStatus.Changed ↔
      ∃ i, 1 < absDiff (vols i) (s.volumes i)) ∧
    ((s.set_volumes vols).2 = DisplayStatus.NotChanged ↔
      ¬∃ i, 1 < absDiff (vols i) (s.volumes i)) ∧
    ((DisplayState.with_volumes ![10, 20, 30, 40]).set_volumes
        ![11, 20, 32, 40]).1.volumes = ![10, 20, 32, 40] ∧
    ((DisplayState.with_volumes ![10, 20, 30, 40]).set_volumes
        ![11, 20, 32, 40]).2 = DisplayStatus.Changed :=
  ⟨set_volumes_fst_volumes s vols, set_volumes_changed_iff s vols,
    set_volumes_not_changed_iff s vols, by decide, by decide⟩

/-- C7: calling `set_volumes` twice in a row with the same values returns
`NotChanged` the second time — after the first call no stored channel
differs from the new values by more than 1. -/
theorem set_volumes_twice_not_changed (s : DisplayState)
    (vols : Fin INPUT_COUNT → Nat) :
    ((s.set_volumes vols).1.set_volumes vols).2 =
      DisplayStatus.NotChanged := by
  rw [set_volumes_not_changed_iff]
  rintro ⟨i, hi⟩
  rw [set_volumes_fst_volumes] at hi
  by_cases h : 1 < absDiff (vols i) (s.volumes i)
  · rw [if_pos h] at hi
    simp [absDiff] at hi
  · rw [if_neg h] at hi
    exact h hi

/-- Witness for C2 at the claim's concrete stored/new arrays. -/
theorem set_volumes_hysteresis_witness :
    ((DisplayState.with_volumes ![10, 20, 30, 40]).set_volumes
        ![11, 20, 32, 40]).1.volumes = ![10, 20, 32, 40] ∧
      ((DisplayState.with_volumes ![10, 20, 30, 40]).set_volumes
        ![11, 20, 32, 40]).2 = DisplayStatus.Changed :=
  ⟨(set_volumes_hysteresis DisplayState.new (fun _ => 0)).2.2.2.1,
    (set_volumes_hysteresis DisplayState.new (fun _ => 0)).2.2.2.2⟩

/-- Witness for C7 on a fresh state and the volumes `[5, 6, 7, 8]`. -/
theorem set_volumes_twice_not_changed_witness :
    ((DisplayState.new.set_volumes ![5, 6, 7, 8]).1.set_volumes
      ![5, 6, 7, 8]).2 = DisplayStatus.NotChanged :=
  set_volumes_twice_not_changed DisplayState.new ![5, 6, 7, 8]

/-- C5: while `ready` has not been called, `draw` returns the not-ready
error, leaving the `DisplayState` fields and the display device untouched;
once `ready` has been called, `draw` succeeds (and `draw` itself never
alters the `DisplayState` fields, so it keeps succeeding). -/
theorem draw_gated_on_ready (s : DisplayState) :
    (s.ready_to_draw = false →
      s.draw = (Except.error (), s, ([] : List DeviceOp))) ∧
    s.ready.draw.1 = Except.ok () ∧
    s.draw.2.1 = s := by
  refine ⟨fun h => by simp [DisplayState.draw, h], ?_, ?_⟩
  · simp [DisplayState.draw, DisplayState.ready]
  · by_cases h : s.ready_to_draw = false <;> simp [DisplayState.draw, h]

/-- Witness for C5 on the freshly constructed state. -/
theorem draw_gated_on_ready_witness :
    DisplayState.new.ready_to_draw = false ∧
      DisplayState.new.draw =
        (Except.error (), DisplayState.new, ([] : List DeviceOp)) ∧
      DisplayState.new.ready.draw.1 = Except.ok () :=
  ⟨rfl, (draw_gated_on_ready DisplayState.new).1 rfl,
    (draw_gated_on_ready DisplayState.new).2.1⟩

/-! ## Telemetry (`send_to_serial`, `src/main.rs` lines 229-242)

The task scales every shared raw value with `scale_analog_input_to_1023`
and emits `println!("{}|{}|{}|{}\r", v0, v1, v2, v3)`; `println!` appends a
newline after the format string, so the line on the wire is
`V0|V1|V2|V3\r\n`. -/

def telemetry_line (raw_input_values : Fin INPUT_COUNT → Nat) : String :=
  toString (scale_analog_input_to_1023 (raw_input_values 0)) ++ "|" ++
  toString (scale_analog_input_to_1023 (raw_input_values 1)) ++ "|" ++
  toString (scale_analog_input_to_1023 (raw_input_values 2)) ++ "|" ++
  toString (scale_analog_input_to_1023 (raw_input_values 3)) ++ "\r\n"

/-- C3 counterexample: on the raw array `[0, 385, 770, 700]` the emitted
line is `0|511|1023|930\r\n` — the integer-truncating formula gives
`700 * 1023 / 770 = 930` for the last channel, not the 933 the spec
states. -/
theorem telemetry_line_example_counterexample :
    telemetry_line ![0, 385, 770, 700] = "0|511|1023|930\r\n" ∧
      telemetry_line ![0, 385, 770, 700] ≠ "0|511|1023|933\r\n" := by
  constructor
  · rfl
  · decide

/-- C3 (amended): each scaled channel value lies in `[0, 1023]`, the line
is the four scaled values in fixed channel order joined by `|` and
terminated by carriage-return-newline, and the raw array
`[0, 385, 770, 700]` with `MAX_ANALOG_VALUE = 770` produces exactly
`0|511|1023|930\r\n`. -/
theorem telemetry_line_format :
    (∀ v, scale_analog_input_to_1023 v ≤ 1023) ∧
    (∀ raw_input_values : Fin INPUT_COUNT → Nat,
      telemetry_line raw_input_values =
        toString (scale_analog_input_to_1023 (raw_input_values 0)) ++ "|" ++
        toString (scale_analog_input_to_1023 (raw_input_values 1)) ++ "|" ++
        toString (scale_analog_input_to_1023 (raw_input_values 2)) ++ "|" ++
        toString (scale_analog_input_to_1023 (raw_input_values 3)) ++
        "\r\n") ∧
    telemetry_line ![0, 385, 770, 700] = "0|511|1023|930\r\n" := by
  refine ⟨fun v => ?_, fun _ => rfl, rfl⟩
  have h : scale_analog_input_to_1023 v =
      scale_to_range (min v MAX_ANALOG_VALUE) 0 MAX_ANALOG_VALUE 0 1023 := by
    simp only [scale_analog_input_to_1023, scale_to_range]
    have : min (min v MAX_ANALOG_VALUE) MAX_ANALOG_VALUE =
        min v MAX_ANALOG_VALUE := by omega
    rw [this]
  rw [h]
  exact (scale_to_range_mem (min v MAX_ANALOG_VALUE) 0 MAX_ANALOG_VALUE 0 1023
    (by decide) (by decide) (by decide) (by decide) (by omega)).2

/-! ## Auto-off scheduling (spec sections 4.4 and 8)

The source tree here contains only the periodic-refresh variant of
`update_display` (`src/main.rs` lines 148-227), which rearms its own
refresh timer and never arms an auto-off timer nor calls `turn_off`; the
repository's auto-off variant of the task is not among these files, only
`DisplayState::turn_off` (`src/lib.rs` lines 259-261) is declared.  The
auto-off protocol is therefore modelled from the spec below. -/

/-- Modelled from the spec: the two events seen by the auto-off timer —
a display-refresh task run (which draws and then arms the auto-off timer
with the configured on-duration) and an expiry of that timer. -/
inductive SchedulerEvent where
  | refresh
  | autoOffExpire
deriving DecidableEq

/-- Modelled from the spec: the auto-off timer's armed/pending state. -/
structure AutoOffTimer where
  armed : Bool
deriving DecidableEq

/-- Modelled from the spec: one scheduler step of the missing auto-off
logic.  A display-refresh run arms the timer (its drawing ops are
orthogonal to power-off and elided from the trace); when the armed timer
expires the auto-off task clears the timer's pending state and invokes
`turn_off`; an expiry event on a disarmed timer does nothing. -/
def autoOffStep (t : AutoOffTimer) (e : SchedulerEvent) :
    AutoOffTimer × List DeviceOp :=
  match e with
  | SchedulerEvent.refresh => (⟨true⟩, [])
  | SchedulerEvent.autoOffExpire =>
      if t.armed then (⟨false⟩, turn_off) else (t, [])

/-- Modelled from the spec: a run of the auto-off state machine over a
sequence of scheduler events, collecting the device operations issued. -/
def autoOffRun (t : AutoOffTimer) :
    List SchedulerEvent → AutoOffTimer × List DeviceOp
  | [] => (t, [])
  | e :: es =>
      let step := autoOffStep t e
      let rest := autoOffRun step.1 es
      (rest.1, step.2 ++ rest.2)

lemma autoOffRun_disarmed (es : List SchedulerEvent)
    (hre : SchedulerEvent.refresh ∉ es) :
    autoOffRun ⟨false⟩ es = (⟨false⟩, []) := by
  induction es with
  | nil => rfl
  | cons e es ih =>
      have he : e = SchedulerEvent.autoOffExpire := by
        cases e
        · exact absurd (List.mem_cons_self _ _) hre
        · rfl
      subst he
      have hre' : SchedulerEvent.refresh ∉ es := fun h =>
        hre (List.mem_cons_of_mem _ h)
      simp [autoOffRun, autoOffStep, ih hre']

lemma autoOffRun_count_le_one (t : AutoOffTimer) (es : List SchedulerEvent)
    (hre : SchedulerEvent.refresh ∉ es) :
    ((autoOffRun t es).2.count (DeviceOp.setDisplayOn false)) ≤ 1 := by
  induction es generalizing t with
  | nil => simp [autoOffRun]
  | cons e es ih =>
      have he : e = SchedulerEvent.autoOffExpire := by
        cases e
        · exact absurd (List.mem_cons_self _ _) hre
        · rfl
      subst he
      have hre' : SchedulerEvent.refresh ∉ es := fun h =>
        hre (List.mem_cons_of_mem _ h)
      by_cases ha : t.armed = true
      · simp [autoOffRun, autoOffStep, ha, autoOffRun_disarmed es hre',
          turn_off]
      · simp only [autoOffRun, autoOffStep, if_neg ha]
        simpa using ih t hre'

/-- C9 (spec-modelled): a display-refresh run arms the auto-off timer;
when no further refresh has occurred and the armed timer expires, the
auto-off task clears the pending state and invokes `turn_off` (one
`setDisplayOn false` device op); and along any refresh-free event
sequence `turn_off` is invoked at most once — never twice without an
intervening rearm. -/
theorem auto_off_once_per_arm_cycle (t : AutoOffTimer)
    (es : List SchedulerEvent) (hre : SchedulerEvent.refresh ∉ es) :
    (autoOffStep t SchedulerEvent.refresh).1.armed = true ∧
    (t.armed = true →
      autoOffStep t SchedulerEvent.autoOffExpire = (⟨false⟩, turn_off)) ∧
    ((autoOffRun t es).2.count (DeviceOp.setDisplayOn false)) ≤ 1 :=
  ⟨rfl, fun h => by simp [autoOffStep, h],
    autoOffRun_count_le_one t es hre⟩

/-- Witness for C9: an armed timer hit by two consecutive expiry events
with no refresh in between. -/
theorem auto_off_once_per_arm_cycle_witness :
    SchedulerEvent.refresh ∉
        [SchedulerEvent.autoOffExpire, SchedulerEvent.autoOffExpire] ∧
      ((autoOffStep ⟨true⟩ SchedulerEvent.refresh).1.armed = true ∧
        ((⟨true⟩ : AutoOffTimer).armed = true →
          autoOffStep ⟨true⟩ SchedulerEvent.autoOffExpire =
            (⟨false⟩, turn_off)) ∧
        ((autoOffRun ⟨true⟩
            [SchedulerEvent.autoOffExpire,
              SchedulerEvent.autoOffExpire]).2.count
          (DeviceOp.setDisplayOn false)) ≤ 1) :=
  ⟨by decide,
    auto_off_once_per_arm_cycle ⟨true⟩
      [SchedulerEvent.autoOffExpire, SchedulerEvent.autoOffExpire]
      (by decide)⟩

end RustDeej
